import Mathlib

/-!
Verification of `boto3-manager` (`src/boto3manager/manager.py`).

Python strings are embedded as `List Char` (`PyStr`), so that the string
operations the code uses (`+`, `str.removeprefix`, `str.split('/')`,
`'/'.join`, `os.path.basename`) become plain list functions that we can
reason about structurally.
-/

namespace Boto3Manager

/-- A Python string, embedded as its list of characters. -/
abbrev PyStr := List Char

/-- Python `s.removeprefix(pre)`: drop `pre` from the front of `s` when `s`
starts with `pre`, otherwise return `s` unchanged (manager.py line 203). -/
def pyRemovePrefix (s pre : PyStr) : PyStr :=
  if pre.isPrefixOf s then s.drop pre.length else s

/-- Python `s.split('/')` (manager.py line 203): split on every `'/'`;
the empty string yields `[""]`, never an empty list. -/
def pySplitSlash : PyStr → List PyStr
  | [] => [[]]
  | c :: cs =>
    if c = '/' then [] :: pySplitSlash cs
    else
      match pySplitSlash cs with
      | [] => [[c]]
      | g :: gs => (c :: g) :: gs

/-- Python `'/'.join(segments)` (manager.py line 212), also the forward-slash
rendering `PurePath.as_posix()` of a relative path given by its components
(manager.py line 129). -/
def joinSlash : List PyStr → PyStr
  | [] => []
  | [g] => g
  | g :: gs => g ++ '/' :: joinSlash gs

/-- Key construction of `upload` (manager.py lines 129-133): the file's path
relative to the upload root, rendered with forward slashes, with the prefix
prepended by plain string concatenation when one was given. `rel` is the
relative path as its list of components. -/
def toKey (pre : PyStr) (rel : List PyStr) : PyStr :=
  pre ++ joinSlash rel

/-- The `prefix`-handling of `upload` in isolation (manager.py lines 131-133):
`destination_path = prefix + destination_path` only when a prefix was given. -/
def upload_key (pre : Option PyStr) (rel : PyStr) : PyStr :=
  match pre with
  | none => rel
  | some p => p ++ rel

/-- Key-to-local-path reversal of `download` (manager.py lines 200-212):
`path_list = key.removeprefix(prefix).split('/')`, the base name is
`path_list[-1]`, and the directory components appended to the destination
root are `path_list[:-1]` when `len(path_list) > 1`, nothing otherwise.
Returns (directory components appended to the destination, base name). -/
def downloadTarget (pre key : PyStr) : List PyStr × PyStr :=
  let pathList := pySplitSlash (pyRemovePrefix key pre)
  let baseName := pathList.getLastD []
  let dirs := if pathList.length > 1 then pathList.dropLast else []
  (dirs, baseName)

/-- Python `Path(a) / b` (`pathlib`) for a relative segment `b`: pathlib drops
empty segments, so joining with `""` returns `a` unchanged; otherwise a `'/'`
is inserted (manager.py line 218). -/
def pathJoin (a b : PyStr) : PyStr :=
  if b = [] then a else a ++ '/' :: b

/-- POSIX `os.path.basename`: everything after the last `'/'`
(manager.py line 261). -/
def basename (p : PyStr) : PyStr :=
  (pySplitSlash p).getLastD []

/-- Key construction of the legacy `upload_all` (manager.py lines 261-266):
with a destination, the key is `f"{destination}/{object_name}"` where
`object_name = os.path.basename(path)`; without one it is the base name. -/
def uploadAllKey (destination : Option PyStr) (path : PyStr) : PyStr :=
  match destination with
  | none => basename path
  | some d => d ++ '/' :: basename path

/-! ### Lemmas on split/join -/

theorem pySplitSlash_ne_nil (l : PyStr) : pySplitSlash l ≠ [] := by
  induction l with
  | nil => simp [pySplitSlash]
  | cons c cs ih =>
    simp only [pySplitSlash]
    split
    · simp
    · match h : pySplitSlash cs with
      | [] => simp
      | g :: gs => simp

theorem pySplitSlash_no_slash (g : PyStr) (h : '/' ∉ g) :
    pySplitSlash g = [g] := by
  induction g with
  | nil => rfl
  | cons c cs ih =>
    have hc : c ≠ '/' := fun hc => h (hc ▸ List.mem_cons_self c cs)
    have hcs : '/' ∉ cs := fun hm => h (List.mem_cons_of_mem c hm)
    simp only [pySplitSlash, if_neg hc, ih hcs]

theorem pySplitSlash_append_slash (g rest : PyStr) (h : '/' ∉ g) :
    pySplitSlash (g ++ '/' :: rest) = g :: pySplitSlash rest := by
  induction g with
  | nil => simp [pySplitSlash]
  | cons c cs ih =>
    have hc : c ≠ '/' := fun hc => h (hc ▸ List.mem_cons_self c cs)
    have hcs : '/' ∉ cs := fun hm => h (List.mem_cons_of_mem c hm)
    have h2 := ih hcs
    simp only [List.cons_append, pySplitSlash, if_neg hc, List.append_eq]
    rw [h2]

theorem pySplitSlash_joinSlash (gs : List PyStr) (hne : gs ≠ [])
    (hc : ∀ g ∈ gs, '/' ∉ g) : pySplitSlash (joinSlash gs) = gs := by
  induction gs with
  | nil => exact absurd rfl hne
  | cons g gs ih =>
    match gs with
    | [] =>
      exact pySplitSlash_no_slash g (hc g (List.mem_cons_self g []))
    | g' :: gs' =>
      have hg : '/' ∉ g := hc g (List.mem_cons_self g _)
      have hrest : ∀ x ∈ g' :: gs', '/' ∉ x :=
        fun x hx => hc x (List.mem_cons_of_mem g hx)
      have : joinSlash (g :: g' :: gs') = g ++ '/' :: joinSlash (g' :: gs') := rfl
      rw [this, pySplitSlash_append_slash g _ hg, ih (by simp) hrest]

theorem pyRemovePrefix_append (p s : PyStr) : pyRemovePrefix (p ++ s) p = s := by
  have hpre : p.isPrefixOf (p ++ s) = true :=
    List.isPrefixOf_iff_prefix.mpr (List.prefix_append p s)
  simp [pyRemovePrefix, hpre]

theorem pyRemovePrefix_self (p : PyStr) : pyRemovePrefix p p = [] := by
  have h := pyRemovePrefix_append p []
  simpa using h

/-! ### Claims about the key mapping -/

/-- C1: round-trip identity of the key mapping. For every prefix `P` and every
relative file path `R` under the upload root (given by its non-empty list of
slash-free components), `upload` maps it to the key `toKey P R`, and
`download`'s key-to-local-path reversal under the same prefix recovers exactly
the parent-directory components of `R` (appended to the destination root) and
the basename of `R` as the file name. -/
theorem upload_download_key_roundtrip (P : PyStr) (R : List PyStr) (hR : R ≠ [])
    (hc : ∀ r ∈ R, '/' ∉ r) :
    downloadTarget P (toKey P R) = (R.dropLast, R.getLast hR) := by
  have hkey : pySplitSlash (pyRemovePrefix (P ++ joinSlash R) P) = R := by
    rw [pyRemovePrefix_append, pySplitSlash_joinSlash R hR hc]
  have hbase : R.getLastD [] = R.getLast hR := by
    rw [List.getLastD_eq_getLast?, List.getLast?_eq_getLast _ hR]
    rfl
  simp only [downloadTarget, toKey, hkey, hbase]
  rcases R with _ | ⟨r, rs⟩
  · exact absurd rfl hR
  · rcases rs with _ | ⟨r2, rs'⟩
    · simp
    · simp only [List.length_cons, Prod.mk.injEq, and_true]
      rw [if_pos (by omega)]

/-- Witness for C1 at prefix `"p/"` and relative path `a/b.txt`. -/
theorem upload_download_key_roundtrip_witness :
    downloadTarget ("p/".data) (toKey ("p/".data) ["a".data, "b.txt".data]) =
      (["a".data], "b.txt".data) := by
  have h := upload_download_key_roundtrip ("p/".data) ["a".data, "b.txt".data]
    (by decide) (by decide)
  simpa using h

/-- C7: for every non-empty prefix `P` and relative posix path `rel`, the
remote key built by `upload` is the direct string concatenation `P ++ rel`,
with no separator character inserted between the prefix and the relative
path. -/
theorem upload_key_is_direct_concat (p rel : PyStr) (_hp : p ≠ []) :
    upload_key (some p) rel = p ++ rel := rfl

/-- Witness for C7 at prefix `"pre-"` and relative path `a/b`. -/
theorem upload_key_is_direct_concat_witness :
    ("pre-".data ≠ ([] : PyStr)) ∧
      upload_key (some "pre-".data) "a/b".data = "pre-".data ++ "a/b".data :=
  ⟨by decide, upload_key_is_direct_concat "pre-".data "a/b".data (by decide)⟩

/-- C6 counterexample: for the concrete key `"folder/"` equal to the prefix
`"folder/"`, `download`'s key-to-local-path reversal does not fail with any
error (no `EmptyObjectNameError` exists in the code): it returns no directory
components and an empty base name, and `pathlib` joining with the empty base
name leaves the path equal to the destination root. -/
theorem key_eq_prefix_no_error :
    downloadTarget "folder/".data "folder/".data = ([], []) ∧
      pathJoin "dest".data [] = "dest".data := by
  constructor
  · decide
  · rfl

/-- C6 amended: for every key exactly equal to the prefix, the reversal does
not raise: it yields no directory components and an empty base name, and the
final local path is the destination root itself (the empty segment is dropped
by `pathlib`'s join). -/
theorem key_eq_prefix_target (P dest : PyStr) :
    downloadTarget P P = ([], []) ∧ pathJoin dest [] = dest := by
  refine ⟨?_, rfl⟩
  simp [downloadTarget, pyRemovePrefix_self, pySplitSlash]

/-- C9: the legacy `upload_all` with a destination uploads `path` under the
key `destination ++ "/" ++ basename path`: a slash separator is inserted
(unlike `upload`'s raw concatenation) and only the base name is used, so any
two paths with equal base names map to the same remote key. -/
theorem uploadAllKey_basename_collision (d p1 p2 : PyStr)
    (h : basename p1 = basename p2) :
    uploadAllKey (some d) p1 = d ++ '/' :: basename p1 ∧
      uploadAllKey (some d) p1 = uploadAllKey (some d) p2 := by
  refine ⟨rfl, ?_⟩
  simp [uploadAllKey, h]

/-- Witness for C9: `a/f.txt` and `b/c/f.txt` share the base name and collide
on the key `dst/f.txt`. -/
theorem uploadAllKey_basename_collision_witness :
    basename "a/f.txt".data = basename "b/c/f.txt".data ∧
      (uploadAllKey (some "dst".data) "a/f.txt".data =
          "dst".data ++ '/' :: basename "a/f.txt".data ∧
        uploadAllKey (some "dst".data) "a/f.txt".data =
          uploadAllKey (some "dst".data) "b/c/f.txt".data) :=
  ⟨by decide,
    uploadAllKey_basename_collision "dst".data "a/f.txt".data "b/c/f.txt".data
      (by decide)⟩

/-! ### The per-item transfer loop of `upload` and `download` -/

/-- Trace of one `upload`/`download` batch: which items were attempted (their
transfer call was issued), whether `transfer_manager.shutdown()` was reached,
and the boolean the function returns. -/
structure BatchTrace (α : Type) where
  attempted : List α
  shutdownCalled : Bool
  result : Bool
deriving DecidableEq

/-- The per-item loop shared by `upload` (manager.py lines 126-144) and
`download` (lines 197-229): items are tried in order; on the first exception
the function prints the error and returns `False` at once (lines 137-139 and
222-224), so later items are never attempted and `shutdown()` is never
reached; only when the loop finishes does it call
`transfer_manager.shutdown()` and return `True` (lines 141-144 and 226-229).
`ok item` says whether the item's transfer call goes through without
raising. -/
def transferLoop {α : Type} (ok : α → Bool) : List α → BatchTrace α
  | [] => ⟨[], true, true⟩
  | x :: xs =>
    if ok x then
      let t := transferLoop ok xs
      ⟨x :: t.attempted, t.shutdownCalled, t.result⟩
    else ⟨[x], false, false⟩

/-- C4 counterexample: with 20 items of which exactly item 7 (index 6) fails,
the loop attempts only items 0..6 -- 7 of the 20, not all of them -- and
returns `False`; the remaining 13 items are never attempted, and no
success/failure counts are aggregated (the return value is one boolean). -/
theorem single_failure_aborts_counterexample :
    (transferLoop (fun i : Nat => decide (i ≠ 6)) (List.range 20)).attempted ≠
        List.range 20 ∧
      (transferLoop (fun i : Nat => decide (i ≠ 6))
          (List.range 20)).attempted.length = 7 ∧
      (transferLoop (fun i : Nat => decide (i ≠ 6)) (List.range 20)).result =
        false := by
  decide

/-- C4 amended: `upload` and `download` abort at the first failing item: when
every item of `pre` succeeds and `x`'s transfer raises, the loop attempts
exactly `pre ++ [x]` in order -- the items after `x` are never attempted --
does not shut the transfer manager down, and returns `False`. -/
theorem single_failure_aborts {α : Type} (ok : α → Bool) (pre : List α)
    (x : α) (post : List α) (hpre : ∀ y ∈ pre, ok y = true)
    (hx : ok x = false) :
    transferLoop ok (pre ++ x :: post) = ⟨pre ++ [x], false, false⟩ := by
  induction pre with
  | nil => simp [transferLoop, hx]
  | cons a as ih =>
    have ha : ok a = true := hpre a (List.mem_cons_self _ _)
    have has : ∀ y ∈ as, ok y = true :=
      fun y hy => hpre y (List.mem_cons_of_mem _ hy)
    simp [transferLoop, ha, ih has]

/-- Witness for the amended C4: items `[0, 1, 2]` succeed, item `6` fails,
items `[7, 8]` are pending; exactly `[0, 1, 2, 6]` is attempted. -/
theorem single_failure_aborts_witness :
    (∀ y ∈ [0, 1, 2], (fun i : Nat => decide (i ≠ 6)) y = true) ∧
      ((fun i : Nat => decide (i ≠ 6)) 6 = false) ∧
      transferLoop (fun i : Nat => decide (i ≠ 6)) ([0, 1, 2] ++ 6 :: [7, 8]) =
        ⟨[0, 1, 2] ++ [6], false, false⟩ :=
  ⟨by decide, by decide,
    single_failure_aborts (fun i : Nat => decide (i ≠ 6)) [0, 1, 2] 6 [7, 8]
      (by decide) (by decide)⟩

/-- C8 counterexample: a one-item batch whose transfer raises makes the
operation return `False` without `transfer_manager.shutdown()` ever being
called -- the worker/connection pool is not shut down on the failure path. -/
theorem shutdown_skipped_on_failure :
    (transferLoop (fun _ : Nat => false) [0]).result = false ∧
      (transferLoop (fun _ : Nat => false) [0]).shutdownCalled = false := by
  decide

/-- C8 amended: the transfer manager is shut down exactly on the success
path: `shutdown()` is reached if and only if the whole batch completes
without a failure (the operation returns `True`); on the failure path the
function returns without shutting the manager down. -/
theorem shutdown_iff_success {α : Type} (ok : α → Bool) (items : List α) :
    (transferLoop ok items).shutdownCalled = (transferLoop ok items).result := by
  induction items with
  | nil => rfl
  | cons x xs ih =>
    by_cases h : ok x = true
    · simp [transferLoop, h, ih]
    · simp only [Bool.not_eq_true] at h
      simp [transferLoop, h]

/-! ### Paginated listing (`list_all_objects`) -/

/-- One object descriptor as returned by the store listing: its key and its
size in bytes (`obj['Key']`, `obj['Size']`). -/
structure StoreObject where
  key : PyStr
  size : Nat
deriving DecidableEq

/-- One `list_objects_v2` response page: the `Contents` field is absent
(`none`) when the page carries no entries -- exactly the case
`list_all_objects` guards with `if 'Contents' in page` (line 160). -/
structure Page where
  contents : Option (List StoreObject)
deriving DecidableEq

/-- The external boto3 `list_objects_v2` paginator used at manager.py line
155 (the store capability of spec section 6): the fake store holds the pages
in order; page `token` is served and the continuation token `token + 1` is
followed while the store reports further pages. -/
def paginateFrom (store : List Page) (token : Nat) : List Page :=
  if h : token < store.length then
    store.get ⟨token, h⟩ :: paginateFrom store (token + 1)
  else []
termination_by store.length - token

theorem paginateFrom_eq_drop (store : List Page) (t : Nat) :
    paginateFrom store t = store.drop t := by
  by_cases h : t < store.length
  · rw [paginateFrom, dif_pos h, paginateFrom_eq_drop store (t + 1),
      List.drop_eq_getElem_cons h]
    rfl
  · rw [paginateFrom, dif_neg h]
    exact (List.drop_eq_nil_of_le (by omega)).symm
termination_by store.length - t

/-- The generator `list_all_objects` (manager.py lines 146-163): paginate,
then for each page that has a `Contents` field, yield its objects in order. -/
def list_all_objects (store : List Page) : List StoreObject :=
  ((paginateFrom store 0).map fun pg => pg.contents.getD []).flatten

/-- Objects numbered `lo`, ..., `lo + n - 1`, keyed by their decimal index. -/
def mkObjs (lo n : Nat) : List StoreObject :=
  (List.range n).map fun i => ⟨Nat.toDigits 10 (lo + i), lo + i⟩

/-- A fake store serving 2500 objects as 3 pages of sizes 1000, 1000, 500. -/
def pages2500 : List Page :=
  [⟨some (mkObjs 0 1000)⟩, ⟨some (mkObjs 1000 1000)⟩, ⟨some (mkObjs 2000 500)⟩]

/-- C3: `list_all_objects` follows continuation tokens to the end and yields
exactly the concatenation of all pages' entries; over 2500 matching keys
served as 3 pages of sizes 1000, 1000, 500 it yields exactly 2500 object
descriptors, pairwise distinct (no duplicates) and missing none (the output
is the very concatenation of the pages). -/
theorem list_all_objects_pagination :
    (∀ store : List Page,
        list_all_objects store =
          (store.map fun pg => pg.contents.getD []).flatten) ∧
      (list_all_objects pages2500).length = 2500 ∧
      (list_all_objects pages2500).Nodup := by
  have hpag : ∀ store : List Page, paginateFrom store 0 = store := by
    intro store
    rw [paginateFrom_eq_drop]
    rfl
  have hgen : ∀ store : List Page,
      list_all_objects store =
        (store.map fun pg => pg.contents.getD []).flatten := by
    intro store
    rw [list_all_objects, hpag]
  have hconcat : list_all_objects pages2500 =
      mkObjs 0 1000 ++ mkObjs 1000 1000 ++ mkObjs 2000 500 := by
    rw [hgen]
    simp [pages2500]
  have hsizes : (list_all_objects pages2500).map StoreObject.size =
      List.range 2500 := by
    rw [hconcat]
    have h1 : List.range 2500 =
        List.range 2000 ++ List.map (fun x => 2000 + x) (List.range 500) :=
      List.range_add 2000 500
    have h2 : List.range 2000 =
        List.range 1000 ++ List.map (fun x => 1000 + x) (List.range 1000) :=
      List.range_add 1000 1000
    rw [h1, h2]
    simp [mkObjs, List.map_map, Function.comp_def]
  constructor
  · exact hgen
  constructor
  · have := congrArg List.length hsizes
    simpa using this
  · exact List.Nodup.of_map StoreObject.size (hsizes ▸ List.nodup_range 2500)

/-! ### `delete_folder` -/

/-- The external S3 `list_objects_v2` call at manager.py line 319 (store
capability of spec section 6), over a fake bucket given as its list of keys:
a single page of at most 1000 matching keys is returned, and the `Contents`
field is absent (`none`) when no key matches the prefix -- the very case the
repo's own `list_all_objects` guards with `if 'Contents' in page`. -/
def list_objects_v2 (bucket : List PyStr) (pre : PyStr) : Option (List PyStr) :=
  let matching := bucket.filter fun k => pre.isPrefixOf k
  if matching.isEmpty then none else some (matching.take 1000)

/-- The function `delete_folder` (manager.py lines 307-329): one
`list_objects_v2` call, then one single `delete_objects` call with every
listed key. On success it returns `Except.ok` with the list of batched
delete calls issued (each a list of keys). Subscripting the response with
`['Contents']` when the listing is empty raises `KeyError`, which the
`except ClientError` clause (line 326) does not catch, so the exception
escapes (`Except.error`). -/
def delete_folder (bucket : List PyStr) (folder : PyStr) :
    Except String (List (List PyStr)) :=
  match list_objects_v2 bucket folder with
  | none => Except.error "KeyError: Contents"
  | some contents =>
    let objects := contents
    Except.ok [objects]

/-- A fake bucket of 2500 keys `k0`, ..., `k2499`, all under the prefix
`k`. -/
def bucket2500 : List PyStr :=
  (List.range 2500).map fun i => 'k' :: Nat.toDigits 10 i

/-- C2, evaluated at the failing input: over a bucket holding 2500 keys under
the prefix `k`, `delete_folder` issues exactly ONE delete call, whose single
batch holds only the 1000 keys of the first listing page -- not 3 batched
calls of sizes 1000, 1000 and 500 -- and reports success although 1500
matching keys were never deleted. -/
theorem delete_folder_single_unbatched_call :
    ∃ calls, delete_folder bucket2500 ['k'] = Except.ok calls ∧
      calls.length = 1 ∧ calls.map List.length = [1000] := by
  have hfilter : bucket2500.filter (fun k => (['k'] : PyStr).isPrefixOf k) =
      bucket2500 := by
    rw [List.filter_eq_self]
    intro a ha
    rcases List.mem_map.mp ha with ⟨i, _, rfl⟩
    simp [List.isPrefixOf]
  have hlen : bucket2500.length = 2500 := by
    simp [bucket2500]
  have hne : bucket2500.isEmpty = false := by
    rw [List.isEmpty_eq_false_iff_exists_mem]
    exact ⟨'k' :: Nat.toDigits 10 0, List.mem_map_of_mem _ (by simp)⟩
  refine ⟨[bucket2500.take 1000], ?_, rfl, ?_⟩
  · rw [delete_folder, list_objects_v2]
    simp only [hfilter, hne]
    rfl
  · simp [List.length_take, hlen]

/-- C5: for every bucket and prefix matching zero keys, `delete_folder` does
not return success: the listing response has no `Contents` field, the
subscript raises `KeyError`, and the `except ClientError` clause does not
catch it -- the exception propagates instead of the documented `True`. -/
theorem delete_folder_empty_raises (bucket : List PyStr) (folder : PyStr)
    (h : bucket.filter (fun k => folder.isPrefixOf k) = []) :
    delete_folder bucket folder = Except.error "KeyError: Contents" := by
  rw [delete_folder, list_objects_v2]
  simp [h]

/-- Witness for C5: an empty bucket under the prefix `f/`. -/
theorem delete_folder_empty_raises_witness :
    (List.filter (fun k => "f/".data.isPrefixOf k) [] = ([] : List PyStr)) ∧
      delete_folder [] "f/".data = Except.error "KeyError: Contents" :=
  ⟨by decide, delete_folder_empty_raises [] "f/".data (by decide)⟩

/-! ### Directory enumeration of `upload` vs. the legacy `upload_all` -/

/-- One filesystem entry under the uploaded directory as produced by
`Path.glob('**/*')`: its path string and whether it is a directory. -/
structure FSEntry where
  path : PyStr
  isDir : Bool
deriving DecidableEq

/-- The method `get_files` (manager.py lines 66-73), over the glob result:
keep exactly the entries that are not directories, as path strings. -/
def get_files (entries : List FSEntry) : List PyStr :=
  (entries.filter fun e => !e.isDir).map FSEntry.path

/-- The enumeration of the legacy `upload_all` (manager.py lines 253-258):
every glob entry is turned into a path string -- directories are not
excluded -- and each path is passed to the store's upload-file call. -/
def upload_all_paths (entries : List FSEntry) : List PyStr :=
  entries.map FSEntry.path

/-- C10: `upload_all` enumerates without excluding directory entries: every
directory entry's path is among the paths passed to `upload_file`, whereas
`get_files` -- the enumeration `upload` uses -- omits it (provided no
non-directory entry shares the same path string). -/
theorem upload_all_includes_directories (entries : List FSEntry) (e : FSEntry)
    (hmem : e ∈ entries) (_hdir : e.isDir = true)
    (huniq : ∀ e' ∈ entries, e'.path = e.path → e'.isDir = true) :
    e.path ∈ upload_all_paths entries ∧ e.path ∉ get_files entries := by
  refine ⟨List.mem_map_of_mem FSEntry.path hmem, ?_⟩
  intro hmem'
  rcases List.mem_map.mp hmem' with ⟨e', he', hpath⟩
  rcases List.mem_filter.mp he' with ⟨he'', hnd⟩
  have hd := huniq e' he'' hpath
  rw [hd] at hnd
  exact absurd hnd (by decide)

/-- Witness for C10: a tree holding the directory `d` and the file `d/f`. -/
theorem upload_all_includes_directories_witness :
    ((⟨"d".data, true⟩ : FSEntry) ∈
        [(⟨"d".data, true⟩ : FSEntry), ⟨"d/f".data, false⟩] ∧
      (⟨"d".data, true⟩ : FSEntry).isDir = true ∧
      (∀ e' ∈ [(⟨"d".data, true⟩ : FSEntry), ⟨"d/f".data, false⟩],
        e'.path = ("d".data : PyStr) → e'.isDir = true)) ∧
      ("d".data ∈
          upload_all_paths [(⟨"d".data, true⟩ : FSEntry), ⟨"d/f".data, false⟩] ∧
        "d".data ∉
          get_files [(⟨"d".data, true⟩ : FSEntry), ⟨"d/f".data, false⟩]) :=
  ⟨⟨by decide, rfl, by decide⟩,
    upload_all_includes_directories
      [(⟨"d".data, true⟩ : FSEntry), ⟨"d/f".data, false⟩] ⟨"d".data, true⟩
      (by decide) rfl (by decide)⟩

end Boto3Manager
